import Mathlib

/-!
Verification of the PyGate FidoNet/NNTP gateway protocol layer.

The development shallowly embeds the protocol/codec functions of the
repository (src/fidonet_module.py, src/packet_repair.py, src/gateway.py,
src/nntp_client.py) over byte lists.  Python byte strings and text
strings are both modelled as `List Nat`: a byte string is the list of its
byte values, a text string the list of its character code points.  The
`cp437` codec used throughout the source maps every byte below 128 to the
identically numbered code point and conversely, so all the ASCII-level
string manipulation of the source is preserved exactly by this
representation; the high half of the codec is abstracted by the
replacement byte (see `encodeCp437`), which no property below depends on.

File reads (`f.read`, `f.seek`, `f.tell`) are modelled by an explicit
position into the byte list.  Loops whose progress Python does not
guarantee are given fuel; exhausted fuel is reported by a dedicated
result constructor and never occurs on the inputs considered here.
-/

namespace PyGate

/-- Code points of a Lean string literal, used to transcribe the ASCII
string constants of the Python source. -/
def ascii (s : String) : List Nat := s.data.map Char.toNat

/-- Little-endian decoding of two bytes, as done by the source's
`struct.unpack` calls with format `<H`. -/
def le16 (lo hi : Nat) : Nat := lo + 256 * hi

/-- Byte of `data` at index `i`; positions are always in bounds where this
is used. -/
def byteAt (data : List Nat) (i : Nat) : Nat := data.getD i 0

/-- Python `str.strip()` / `lstrip` character class: blank characters. -/
def isPySpace (c : Nat) : Bool :=
  c = 32 || c = 9 || c = 10 || c = 13 || c = 11 || c = 12

/-- Python `s.strip()` with no argument: drop blanks from both ends. -/
def pyStrip (l : List Nat) : List Nat :=
  ((l.dropWhile isPySpace).reverse.dropWhile isPySpace).reverse

/-- Boolean prefix test, modelling Python `str.startswith`. -/
def startsWith (p l : List Nat) : Bool := List.isPrefixOf p l

/-- Loop of `read_null_string`, walking the suffix of the data that
starts at `pos`. -/
def readNullStringGo : List Nat → Nat → List Nat × Nat
  | [], pos => ([], pos)
  | b :: rest, pos =>
    if b = 0 then ([], pos + 1)
    else
      let r := readNullStringGo rest (pos + 1)
      (b :: r.1, r.2)

/-- Embedding of `read_null_string` (fidonet_module.py line 331 and
packet_repair.py line 30): collect bytes until a null or the end of the
data; the returned position is past the null when one was found. -/
def readNullString (data : List Nat) (pos : Nat) : List Nat × Nat :=
  readNullStringGo (data.drop pos) pos

/-- Loop of `read_line`, walking the suffix of the data that starts at
`pos` (the CR lookahead peeks back into the whole data). -/
def readLineGo (data : List Nat) : List Nat → Nat → List Nat →
    Option (List Nat) × Nat
  | [], pos, _ => (none, pos)
  | b :: rest, pos, acc =>
    if b = 0 then (some [], pos + 1)
    else if b = 13 then
      match data[pos + 1]? with
      | some 10 => (some acc, pos + 2)
      | some _ => (some acc, pos + 1)
      | none => (some acc, pos)
    else if b = 10 then (some acc, pos + 1)
    else readLineGo data rest (pos + 1) (acc ++ [b])

/-- Embedding of `read_line` (fidonet_module.py line 341): read bytes up
to CR, LF or NUL.  Returns `none` at end of file.  A NUL returns the
empty line, discarding any bytes accumulated before it, exactly as the
source does.  When a CR is the final byte of the data, the source's
`f.seek(-1, 1)` after the empty `f.read(1)` leaves the file position on
the CR itself; the returned position reproduces that. -/
def readLine (data : List Nat) (pos : Nat) : Option (List Nat) × Nat :=
  readLineGo data (data.drop pos) pos []

/-- How the message-body loop of `parse_packet` ended. -/
inductive BodyEnd
  | eofFile
  | msgEnd
  | fuelOut
deriving DecidableEq, Repr

/-- Result of the message-body loop of `parse_packet`. -/
structure BodyState where
  bodyLines : List (List Nat)
  controlLines : List (List Nat)
  area : List Nat
  pos : Nat
  endKind : BodyEnd
deriving DecidableEq, Repr

/-- Embedding of the message-body loop of `parse_packet`
(fidonet_module.py lines 98-158).  An empty line triggers the one-byte
lookahead of lines 104-115: end of file or a following NUL ends the
message, anything else is an empty line and reading continues.  Control
lines are classified by the prefix tests of lines 121-144; both branches
of the source's final `else` (lines 145-158) append the line to the body,
so they are merged here. -/
def bodyLoop (data : List Nat) :
    Nat → Nat → List (List Nat) → List (List Nat) → List Nat → BodyState
  | 0, pos, body, ctrl, area => ⟨body, ctrl, area, pos, .fuelOut⟩
  | fuel + 1, pos, body, ctrl, area =>
    match readLine data pos with
    | (none, p) => ⟨body, ctrl, area, p, .eofFile⟩
    | (some line, p) =>
      if line = [] then
        match data[p]? with
        | none => ⟨body, ctrl, area, p, .msgEnd⟩
        | some 0 => ⟨body, ctrl, area, p + 1, .msgEnd⟩
        | some _ => bodyLoop data fuel p body ctrl area
      else if startsWith (ascii "\x01") line then
        bodyLoop data fuel p body (ctrl ++ [line.drop 1]) area
      else if startsWith (ascii "AREA:") line then
        bodyLoop data fuel p body (ctrl ++ [line]) (pyStrip (line.drop 5))
      else if startsWith (ascii "SEEN-BY:") line then
        bodyLoop data fuel p body (ctrl ++ [line]) area
      else if startsWith (ascii "---") line then
        bodyLoop data fuel p body (ctrl ++ [line]) area
      else if startsWith (ascii " * Origin:") line then
        bodyLoop data fuel p body (ctrl ++ [line]) area
      else if startsWith (ascii "# Origin:") line then
        bodyLoop data fuel p body (ctrl ++ [line]) area
      else
        bodyLoop data fuel p (body ++ [line]) ctrl area

/-- One message record as assembled by `parse_packet` (fidonet_module.py
lines 160-174); the derived kludge projections of `extract_message_ids`
are omitted as they are computed from the fields kept here. -/
structure ParsedMessage where
  origNode : Nat
  destNode : Nat
  origNet : Nat
  destNet : Nat
  attr : Nat
  cost : Nat
  dateWritten : List Nat
  toName : List Nat
  fromName : List Nat
  subject : List Nat
  bodyLines : List (List Nat)
  controlLines : List (List Nat)
  area : List Nat
deriving DecidableEq, Repr

/-- Which branch terminated `parse_packet`. -/
inductive ParseEnd
  | truncated
  | endMarker
  | incompleteMsgHeader
  | badVersion (version offset : Nat)
  | noMoreData
  | nextNotMessage (version : Nat)
  | fuelOut
deriving DecidableEq, Repr

/-- Embedding of the message loop of `parse_packet` (fidonet_module.py
lines 60-205).  Each iteration reads a 14-byte message header at once
(line 62); fewer than 14 remaining bytes end parsing.  Version 0 is the
end-of-packet marker, any version other than 2 stops parsing at that
offset.  The four string fields, the date included, are read by
`readNullString` (lines 84-87).  After each message the source peeks at
the next 14 bytes (lines 194-205) and stops unless they begin with
version 0 or 2. -/
def parseLoop (data : List Nat) :
    Nat → Nat → List ParsedMessage → List ParsedMessage × ParseEnd
  | 0, _, msgs => (msgs, .fuelOut)
  | fuel + 1, pos, msgs =>
    if data.length < pos + 14 then (msgs, .incompleteMsgHeader)
    else
      if le16 (byteAt data pos) (byteAt data (pos + 1)) = 0 then
        (msgs, .endMarker)
      else if le16 (byteAt data pos) (byteAt data (pos + 1)) ≠ 2 then
        (msgs, .badVersion (le16 (byteAt data pos) (byteAt data (pos + 1))) pos)
      else
        let origNode := le16 (byteAt data (pos + 2)) (byteAt data (pos + 3))
        let destNode := le16 (byteAt data (pos + 4)) (byteAt data (pos + 5))
        let origNet := le16 (byteAt data (pos + 6)) (byteAt data (pos + 7))
        let destNet := le16 (byteAt data (pos + 8)) (byteAt data (pos + 9))
        let attr := le16 (byteAt data (pos + 10)) (byteAt data (pos + 11))
        let cost := le16 (byteAt data (pos + 12)) (byteAt data (pos + 13))
        let dateRead := readNullString data (pos + 14)
        let toRead := readNullString data dateRead.2
        let fromRead := readNullString data toRead.2
        let subjRead := readNullString data fromRead.2
        let bs := bodyLoop data (data.length + 1) subjRead.2 [] [] []
        let msg : ParsedMessage :=
          ⟨origNode, destNode, origNet, destNet, attr, cost,
           dateRead.1, toRead.1, fromRead.1, subjRead.1,
           bs.bodyLines, bs.controlLines, bs.area⟩
        let msgs' := msgs ++ [msg]
        if data.length < bs.pos + 14 then (msgs', .noMoreData)
        else
          let v' := le16 (byteAt data bs.pos) (byteAt data (bs.pos + 1))
          if v' ≠ 2 && v' ≠ 0 then (msgs', .nextNotMessage v')
          else parseLoop data fuel bs.pos msgs'

/-- Embedding of `parse_packet` (fidonet_module.py lines 44-215): check
the 58-byte header is present, then run the message loop from offset 58.
The returned `ParseEnd` records which source branch ended parsing; the
source only logs this distinction, but each constructor corresponds to
one exit path of the code. -/
def parsePacket (data : List Nat) : List ParsedMessage × ParseEnd :=
  if data.length < 58 then ([], .truncated)
  else parseLoop data (data.length + 1) 58 []

/-! Embedding of the packet repair utility (packet_repair.py). -/

/-- The terminator lookahead of `analyze_packet` (packet_repair.py lines
104-114) and of the identical check in `repair_packet` (lines 199-210),
for a null byte sitting at index `pos`: the null is a terminator when the
next byte is 0, or when the next two bytes decode to the little-endian
value 2.  A null with no byte after it is NOT a terminator here. -/
def nullIsTerminator (data : List Nat) (pos : Nat) : Bool :=
  if pos + 1 < data.length then
    if byteAt data (pos + 1) = 0 then true
    else if pos + 2 < data.length then
      decide (le16 (byteAt data (pos + 1)) (byteAt data (pos + 2)) = 2)
    else false
  else false

/-- One record of the `embedded_nulls` list built by `analyze_packet`
(packet_repair.py lines 123-128). -/
structure EmbeddedNull where
  message : Nat
  position : Nat
  textOffset : Nat
  context : List Nat
deriving DecidableEq, Repr

/-- Result dictionary of `analyze_packet` (packet_repair.py lines 52-57);
`errors` counts the strings appended to the `errors` list. -/
structure AnalysisResult where
  valid : Bool
  messages : Nat
  embeddedNulls : List EmbeddedNull
  errors : Nat
deriving DecidableEq, Repr

/-- The context slice `packet_data[max(0,pos-10):min(len,pos+10)]` stored
with each embedded null. -/
def contextSlice (data : List Nat) (pos : Nat) : List Nat :=
  (data.take (min data.length (pos + 10))).drop (pos - 10)

/-- Loop of the message-text scan of `analyze_packet` (packet_repair.py
lines 102-130), walking the suffix of the data that starts at `pos`:
a null that passes `nullIsTerminator` ends the text (the position just
past it is returned), any other null is recorded as embedded and the
walk continues. -/
def analyzeTextGo (data : List Nat) : List Nat → Nat → Nat → Nat →
    List EmbeddedNull → List EmbeddedNull × Nat
  | [], pos, _, _, acc => (acc, pos)
  | b :: rest, pos, msgIdx, textStart, acc =>
    if b = 0 then
      if nullIsTerminator data pos then (acc, pos + 1)
      else
        analyzeTextGo data rest (pos + 1) msgIdx textStart
          (acc ++ [⟨msgIdx, pos, pos - textStart, contextSlice data pos⟩])
    else analyzeTextGo data rest (pos + 1) msgIdx textStart acc

/-- The message-text scan of `analyze_packet` from position `pos`. -/
def analyzeText (data : List Nat) (pos : Nat) (msgIdx textStart : Nat)
    (acc : List EmbeddedNull) : List EmbeddedNull × Nat :=
  analyzeTextGo data (data.drop pos) pos msgIdx textStart acc

/-- Embedding of the message loop of `analyze_packet` (packet_repair.py
lines 66-132).  The loop runs while more than two bytes remain.  An
unexpected version records an error but leaves `valid` true; running out
of data before one of the four string fields sets `valid` false and
returns at once (the messages counter was already incremented).  Each
iteration advances the position by at least fourteen bytes, so the fuel
supplied by `analyzePacket` can never run out; the fuel-exhaustion value
equals the normal loop-exit value. -/
def analyzeLoop (data : List Nat) :
    Nat → Nat → Nat → List EmbeddedNull → AnalysisResult
  | 0, _, msgs, nulls => ⟨true, msgs, nulls, 0⟩
  | fuel + 1, pos, msgs, nulls =>
    if pos + 2 < data.length then
      let version := le16 (byteAt data pos) (byteAt data (pos + 1))
      if version = 0 then ⟨true, msgs, nulls, 0⟩
      else if version ≠ 2 then ⟨true, msgs, nulls, 1⟩
      else
        let msgs' := msgs + 1
        let pos1 := pos + 14
        if data.length ≤ pos1 then ⟨false, msgs', nulls, 1⟩
        else
          let dateRead := readNullString data pos1
          if data.length ≤ dateRead.2 then ⟨false, msgs', nulls, 1⟩
          else
            let toRead := readNullString data dateRead.2
            if data.length ≤ toRead.2 then ⟨false, msgs', nulls, 1⟩
            else
              let fromRead := readNullString data toRead.2
              if data.length ≤ fromRead.2 then ⟨false, msgs', nulls, 1⟩
              else
                let subjRead := readNullString data fromRead.2
                let scanned := analyzeText data subjRead.2 msgs' subjRead.2 nulls
                analyzeLoop data fuel scanned.2 msgs' scanned.1
    else ⟨true, msgs, nulls, 0⟩

/-- Embedding of `analyze_packet` (packet_repair.py lines 41-132): a
packet shorter than the 58-byte header is invalid, otherwise the message
loop scans from offset 58. -/
def analyzePacket (data : List Nat) : AnalysisResult :=
  if data.length < 58 then ⟨false, 0, [], 1⟩
  else analyzeLoop data (data.length + 1) 58 0 []

/-- Loop of the message-text filter of `repair_packet` (packet_repair.py
lines 192-222), walking the suffix of the data that starts at `pos`:
copy text bytes, drop embedded nulls, and on the real terminator return
the text followed by a single null.  Running off the end of the data
discards the text entirely, exactly as the source's loop exits without
writing `text_data`. -/
def repairTextGo (data : List Nat) : List Nat → Nat → List Nat →
    List Nat × Nat
  | [], pos, _ => ([], pos)
  | b :: rest, pos, text =>
    if b = 0 then
      if nullIsTerminator data pos then (text ++ [0], pos + 1)
      else repairTextGo data rest (pos + 1) text
    else repairTextGo data rest (pos + 1) (text ++ [b])

/-- The message-text filter of `repair_packet` from position `pos`. -/
def repairText (data : List Nat) (pos : Nat) (text : List Nat) :
    List Nat × Nat :=
  repairTextGo data (data.drop pos) pos text

/-- Embedding of the rebuild loop of `repair_packet` (packet_repair.py
lines 166-223): while more than two bytes remain, copy each version-2
message (header, the four null-terminated fields, then the filtered
text); a version-0 marker emits the two-byte terminator and stops; any
other version stops without emitting anything further.  As in
`analyzeLoop`, the fuel never runs out on the supplied value. -/
def repairLoop (data : List Nat) : Nat → Nat → List Nat → List Nat
  | 0, _, out => out
  | fuel + 1, pos, out =>
    if pos + 2 < data.length then
      let version := le16 (byteAt data pos) (byteAt data (pos + 1))
      if version = 0 then out ++ [0, 0]
      else if version ≠ 2 then out
      else
        let header := (data.drop pos).take 14
        let dateRead := readNullString data (pos + 14)
        let toRead := readNullString data dateRead.2
        let fromRead := readNullString data toRead.2
        let subjRead := readNullString data fromRead.2
        let fields := dateRead.1 ++ [0] ++ toRead.1 ++ [0] ++
          fromRead.1 ++ [0] ++ subjRead.1 ++ [0]
        let tr := repairText data subjRead.2 []
        repairLoop data fuel tr.2 (out ++ header ++ fields ++ tr.1)
    else out

/-- Embedding of `repair_packet` (packet_repair.py lines 134-224): an
invalid analysis raises `PacketRepairError` (the `error` case); a packet
with no embedded nulls is returned unchanged; otherwise the packet is
rebuilt from the 58-byte header onward. -/
def repairPacket (data : List Nat) : Except Unit (List Nat) :=
  let analysis := analyzePacket data
  if analysis.valid = false then .error ()
  else if analysis.embeddedNulls = [] then .ok data
  else .ok (repairLoop data (data.length + 1) 58 (data.take 58))

/-! String and number helpers shared by the writer and gateway
embeddings. -/

/-- Digit loop for `natDigits`; the fuel bounds the number of digits and
never runs out at the value `natDigits` supplies. -/
def natDigitsGo : Nat → Nat → List Nat
  | 0, _ => []
  | fuel + 1, n =>
    if n < 10 then [48 + n]
    else natDigitsGo fuel (n / 10) ++ [48 + n % 10]

/-- Decimal digit string of a natural number, modelling Python `str` on a
non-negative `int` (and the interpolation of such values). -/
def natDigits (n : Nat) : List Nat := natDigitsGo (n + 1) n

/-- Python formatting `{:02d}` of a non-negative value: pad with a
leading zero below ten. -/
def pad2 (n : Nat) : List Nat :=
  if n < 10 then 48 :: natDigits n else natDigits n

/-- Hexadecimal digit characters as produced by Python `{:x}`. -/
def hexDigitChar (d : Nat) : Nat := if d < 10 then 48 + d else 87 + d

/-- Digit loop for `natHexDigits`; the fuel bounds the digit count and
never runs out at the value `natHexDigits` supplies. -/
def natHexDigitsGo : Nat → Nat → List Nat
  | 0, _ => []
  | fuel + 1, n =>
    if n < 16 then [hexDigitChar n]
    else natHexDigitsGo fuel (n / 16) ++ [hexDigitChar (n % 16)]

/-- Hexadecimal digit string of a natural number (Python `{:x}`). -/
def natHexDigits (n : Nat) : List Nat := natHexDigitsGo (n + 1) n

/-- Python formatting `{:08x}`: zero-pad the hex digits to width eight. -/
def hex8 (n : Nat) : List Nat :=
  List.replicate (8 - (natHexDigits n).length) 48 ++ natHexDigits n

/-- Scan loop of Python `str.replace`; each step consumes at least one
character of `l`, so the fuel `pyReplace` supplies never runs out. -/
def pyReplaceGo : Nat → List Nat → List Nat → List Nat → List Nat
  | 0, _, _, _ => []
  | fuel + 1, l, pat, rep =>
    match l with
    | [] => []
    | c :: rest =>
      if pat ≠ [] ∧ pat.isPrefixOf (c :: rest) then
        rep ++ pyReplaceGo fuel ((c :: rest).drop pat.length) pat rep
      else c :: pyReplaceGo fuel rest pat rep

/-- Python `str.replace(pat, rep)`: scan left to right, replacing each
non-overlapping occurrence of `pat`.  The sources only call this with
non-empty patterns, which the guard mirrors. -/
def pyReplace (l pat rep : List Nat) : List Nat :=
  pyReplaceGo (l.length + 1) l pat rep

/-- Python `str.split(sep)` for a one-character separator with no limit. -/
def pySplitOn (sep : Nat) (l : List Nat) : List (List Nat) :=
  match l with
  | [] => [[]]
  | c :: rest =>
    let r := pySplitOn sep rest
    if c = sep then [] :: r
    else (c :: r.headI) :: r.tail

/-! Embedding of the packet writer (`write_message`, fidonet_module.py
lines 628-774). -/

/-- One-byte cp437 encoding of a code point, as used by every
`.encode('cp437', errors='replace')` call of the source.  The codec maps
each code point to exactly one byte: code points below 128 to themselves,
and everything else to some non-zero byte (a cp437 glyph byte in the
range 128-255, or the replacement byte `?` for unencodable characters).
The high half is abstracted here by the replacement byte: no property in
this development depends on which non-zero byte a non-ASCII character
becomes, only on the one-byte-per-character shape and on the fact that
no character other than NUL encodes to 0x00, both of which the real
codec satisfies. -/
def encodeCp437 (c : Nat) : Nat := if c < 128 then c else 63

/-- Encode a Python string (list of code points) to cp437 bytes. -/
def encodeStr (l : List Nat) : List Nat := l.map encodeCp437

/-- Little-endian two-byte encoding done by `struct.pack('<H', n)`; the
source's values are 16-bit quantities (larger values would make
`struct.pack` raise, which no claim here exercises). -/
def u16Bytes (n : Nat) : List Nat := [n % 256, n / 256 % 256]

/-- Truncation applied to the to/from/subject fields before encoding
(fidonet_module.py lines 656-675): values longer than the limit are cut
to the limit. -/
def truncateField (limit : Nat) (value : List Nat) : List Nat :=
  if limit < value.length then value.take limit else value

/-- The non-fatal diagnostics `write_message` reports via
`logger.warning` when a field is truncated. -/
inductive Diag
  | truncatedToName
  | truncatedFromName
  | truncatedSubject
deriving DecidableEq, Repr

/-- Diagnostics emitted for one message, one per oversized field
(fidonet_module.py lines 658-660, 665-667, 672-674). -/
def writeDiags (toName fromName subject : List Nat) : List Diag :=
  (if 35 < toName.length then [Diag.truncatedToName] else []) ++
  (if 35 < fromName.length then [Diag.truncatedFromName] else []) ++
  (if 71 < subject.length then [Diag.truncatedSubject] else [])

/-- The 20-byte date field (fidonet_module.py lines 646-654): encode the
`strftime` output and pad with spaces or truncate to exactly 20 bytes,
with no null terminator. -/
def dateField (dateStr : List Nat) : List Nat :=
  let dateBytes := encodeStr dateStr
  if dateBytes.length < 20 then
    dateBytes ++ List.replicate (20 - dateBytes.length) 32
  else if 20 < dateBytes.length then dateBytes.take 20
  else dateBytes

/-- The body cleanup of fidonet_module.py line 719: strip null bytes,
turn LF into CR, then collapse doubled CR. -/
def cleanText (t : List Nat) : List Nat :=
  pyReplace (pyReplace (pyReplace t [0] []) [10] [13]) [13, 13] [13]

/-- Message record as consumed by `write_message`.  List-valued fields
model Python strings by their code points; `tearline` and `origin` are
options because the source reads them with `.get(key, generated_default)`
while the other string fields are tested only for truthiness, which the
empty list models. -/
structure OutMessage where
  origNode : Nat
  destNode : Nat
  origNet : Nat
  destNet : Nat
  attr : Nat
  destZone : Nat
  origZone : Nat
  toName : List Nat
  fromName : List Nat
  subject : List Nat
  dateStr : List Nat
  text : List Nat
  area : List Nat
  msgid : List Nat
  reply : List Nat
  pid : List Nat
  tid : List Nat
  chrs : List Nat
  tzutc : List Nat
  replyaddr : List Nat
  replyto : List Nat
  tearline : Option (List Nat)
  origin : Option (List Nat)
  seenBy : List (List Nat)
  path : List (List Nat)
deriving DecidableEq, Repr

/-- Run-time context of `write_message`: the `generate_tearline()` and
`get_our_origin()` defaults, which depend on configuration and platform. -/
structure WriteCtx where
  tearline : List Nat
  origin : List Nat
deriving DecidableEq, Repr

/-- The INTL kludge line for netmail (fidonet_module.py lines 687-694). -/
def intlLine (msg : OutMessage) : List Nat :=
  ascii "\x01INTL " ++ natDigits msg.destZone ++ [58] ++
  natDigits msg.destNet ++ [47] ++ natDigits msg.destNode ++ [32] ++
  natDigits msg.origZone ++ [58] ++ natDigits msg.origNet ++ [47] ++
  natDigits msg.origNode

/-- The SEEN-BY/PATH accumulation loops (fidonet_module.py lines
740-770): each address containing a slash is split into net and node;
the net is emitted only when it differs from the previous one.  The
Python tuple unpacking `net, node = address.split('/')` raises when the
address holds more than one slash, which the error case models. -/
def trailerAddrLine (addresses : List (List Nat)) (line : List Nat)
    (currentNet : Option (List Nat)) : Except Unit (List Nat) :=
  match addresses with
  | [] => .ok line
  | address :: rest =>
    if address.contains 47 then
      if (pySplitOn 47 address).length = 2 then
        if some ((pySplitOn 47 address).getD 0 []) ≠ currentNet then
          trailerAddrLine rest
            (line ++ [32] ++ (pySplitOn 47 address).getD 0 [] ++ [47] ++
              (pySplitOn 47 address).getD 1 [])
            (some ((pySplitOn 47 address).getD 0 []))
        else
          trailerAddrLine rest
            (line ++ [32] ++ (pySplitOn 47 address).getD 1 []) currentNet
      else .error ()
    else trailerAddrLine rest (line ++ [32] ++ address) currentNet

/-- The unconditional part of the text-line assembly of `write_message`
(fidonet_module.py lines 677-720), in source order: AREA tag for
echomail, INTL kludge for netmail, the optional kludges, then the
cleaned body. -/
def frontLines (msg : OutMessage) : List (List Nat) :=
  (if msg.area ≠ [] then [ascii "AREA:" ++ msg.area] else []) ++
  (if msg.area = [] then [intlLine msg] else []) ++
  (if msg.msgid ≠ [] then [ascii "\x01MSGID: " ++ msg.msgid] else []) ++
  (if msg.reply ≠ [] then [ascii "\x01REPLY: " ++ msg.reply] else []) ++
  (if msg.pid ≠ [] then [ascii "\x01PID: " ++ msg.pid] else []) ++
  (if msg.tid ≠ [] then [ascii "\x01TID: " ++ msg.tid] else []) ++
  (if msg.chrs ≠ [] then [ascii "\x01CHRS: " ++ msg.chrs] else []) ++
  (if msg.tzutc ≠ [] then [ascii "\x01TZUTC: " ++ msg.tzutc] else []) ++
  (if msg.replyaddr ≠ [] then [ascii "\x01REPLYADDR " ++ msg.replyaddr]
   else []) ++
  (if msg.replyto ≠ [] then [ascii "\x01REPLYTO " ++ msg.replyto] else []) ++
  (if msg.text ≠ [] then [cleanText msg.text] else [])

/-- The tear line of the echomail trailer (fidonet_module.py lines
728-731): the message's own tear line or the generated one, given a
`---` prefix when missing. -/
def tearLineOf (msg : OutMessage) (ctx : WriteCtx) : List Nat :=
  if startsWith (ascii "---") (msg.tearline.getD ctx.tearline) then
    msg.tearline.getD ctx.tearline
  else ascii "--- " ++ msg.tearline.getD ctx.tearline

/-- The origin line of the echomail trailer (fidonet_module.py lines
733-735). -/
def originLineOf (msg : OutMessage) (ctx : WriteCtx) : List Nat :=
  ascii " * Origin: " ++ msg.origin.getD ctx.origin

/-- The SEEN-BY line, present only when the list is non-empty
(fidonet_module.py lines 737-753). -/
def seenByLines (msg : OutMessage) : Except Unit (List (List Nat)) :=
  if msg.seenBy = [] then .ok []
  else
    match trailerAddrLine msg.seenBy (ascii "SEEN-BY:") none with
    | .error e => .error e
    | .ok l => .ok [l]

/-- The PATH kludge line, present only when the list is non-empty
(fidonet_module.py lines 755-770). -/
def pathLines (msg : OutMessage) : Except Unit (List (List Nat)) :=
  if msg.path = [] then .ok []
  else
    match trailerAddrLine msg.path (ascii "\x01PATH:") none with
    | .error e => .error e
    | .ok l => .ok [l]

/-- The full text-line assembly of `write_message` (fidonet_module.py
lines 677-770): the unconditional lines, followed for echomail by the
trailer in source order — blank line, tear line, origin line, then the
optional SEEN-BY and PATH lines, whose construction can raise. -/
def buildTextLines (msg : OutMessage) (ctx : WriteCtx) :
    Except Unit (List (List Nat)) :=
  if msg.area = [] then .ok (frontLines msg)
  else
    match seenByLines msg with
    | .error e => .error e
    | .ok sb =>
      match pathLines msg with
      | .error e => .error e
      | .ok pl =>
        .ok (frontLines msg ++ [[]] ++ [tearLineOf msg ctx] ++
             [originLineOf msg ctx] ++ sb ++ pl)

/-- Join text lines with CR, as `'\r'.join(text_lines)` does
(fidonet_module.py line 773). -/
def joinCR : List (List Nat) → List Nat
  | [] => []
  | [l] => l
  | l :: l2 :: ls => l ++ 13 :: joinCR (l2 :: ls)

/-- Embedding of `write_message` (fidonet_module.py lines 628-774): the
version word, the 12-byte message header, the 20-byte date field, the
three truncated null-terminated fields, then the assembled text and its
terminating null.  The result also carries the truncation diagnostics;
the error case is the `ValueError` the SEEN-BY/PATH loops can raise. -/
def writeMessage (msg : OutMessage) (ctx : WriteCtx) :
    Except Unit (List Nat × List Diag) :=
  match buildTextLines msg ctx with
  | .error e => .error e
  | .ok lines => .ok
      ([2, 0] ++
       u16Bytes msg.origNode ++ u16Bytes msg.destNode ++
       u16Bytes msg.origNet ++ u16Bytes msg.destNet ++
       u16Bytes msg.attr ++ u16Bytes 0 ++
       dateField msg.dateStr ++
       encodeStr (truncateField 35 msg.toName) ++ [0] ++
       encodeStr (truncateField 35 msg.fromName) ++ [0] ++
       encodeStr (truncateField 71 msg.subject) ++ [0] ++
       encodeStr (joinCR lines) ++ [0],
       writeDiags msg.toName msg.fromName msg.subject)

/-! Embedding of the identifier and timezone helpers of gateway.py. -/

/-- CRC-32 bit step used by `binascii.crc32`: shift right, folding in the
reflected polynomial when the low bit is set. -/
def crc32Step (c : Nat) : Nat :=
  if c % 2 = 1 then Nat.xor (c / 2) 0xEDB88320 else c / 2

/-- CRC-32 update for one byte. -/
def crc32Byte (c b : Nat) : Nat :=
  (List.range 8).foldl (fun a _ => crc32Step a) (Nat.xor c b)

/-- `binascii.crc32(data) & 0xffffffff` over a byte list. -/
def crc32 (bytes : List Nat) : Nat :=
  Nat.xor (bytes.foldl crc32Byte 0xFFFFFFFF) 0xFFFFFFFF

/-- UTF-8 encoding of one code point, modelling `str.encode('utf-8')`. -/
def utf8Bytes (c : Nat) : List Nat :=
  if c < 0x80 then [c]
  else if c < 0x800 then [0xC0 + c / 64, 0x80 + c % 64]
  else if c < 0x10000 then
    [0xE0 + c / 4096, 0x80 + c / 64 % 64, 0x80 + c % 64]
  else
    [0xF0 + c / 262144, 0x80 + c / 4096 % 64, 0x80 + c / 64 % 64,
     0x80 + c % 64]

/-- UTF-8 encoding of a code-point string. -/
def utf8Encode (l : List Nat) : List Nat := (l.map utf8Bytes).flatten

/-- Python `s.strip('<>')`: remove angle brackets from both ends. -/
def stripAngles (l : List Nat) : List Nat :=
  ((l.dropWhile fun c => c = 60 || c = 62).reverse.dropWhile
    fun c => c = 60 || c = 62).reverse

/-- Environment consumed by the empty-id branch of
`generate_fido_msgid` (gateway.py lines 710-726): the `uuid.uuid4()`
string, the current `time.time()` value, and the hostname resolved from
`socket.getfqdn()` or the configured domain. -/
structure MsgidEnv where
  uuidStr : List Nat
  timestamp : Nat
  hostname : List Nat
deriving DecidableEq, Repr

/-- Embedding of `generate_fido_msgid` (gateway.py lines 695-732).  A
non-empty NNTP message id is stripped of angle brackets and anchored
with the 8-hex-digit CRC-32 of its UTF-8 bytes.  An empty id
synthesizes one from the environment: the dash-free first 16 characters
of a fresh UUID, the current time in 8 hex digits, and the hostname. -/
def generate_fido_msgid (nntpMessageId : List Nat) (env : MsgidEnv) :
    List Nat :=
  if nntpMessageId ≠ [] then
    let messageId := stripAngles nntpMessageId
    let crcHex := hex8 (crc32 (utf8Encode messageId))
    [60] ++ messageId ++ [62, 32] ++ crcHex
  else
    let uniqueId := (pyReplace env.uuidStr [45] []).take 16
    let messageId := uniqueId ++ hex8 env.timestamp ++ [64] ++ env.hostname
    let crcHex := hex8 (crc32 (utf8Encode messageId))
    [60] ++ messageId ++ [62, 32] ++ crcHex

/-- Python `datetime` reduced to what the timezone helpers touch: the
naive clock reading (as seconds) and the attached UTC offset in seconds,
`none` for a naive value.  `utcoffset()` is the `tz` field. -/
structure PyDatetime where
  naiveSeconds : Int
  tz : Option Int
deriving DecidableEq, Repr

/-- The process-local timezone data `generate_tzutc_offset` consults for
naive datetimes (`time.daylight`, `time.altzone`, `time.timezone`). -/
structure LocalTz where
  daylight : Bool
  altzone : Int
  timezone : Int
deriving DecidableEq, Repr

/-- Embedding of `generate_tzutc_offset` (gateway.py lines 755-787):
compute the offset seconds (from the attached timezone, or the local
one for naive input), then format `-HHMM` from the absolute value for
negative offsets and `HHMM` otherwise. -/
def generate_tzutc_offset (messageDate : PyDatetime) (localtz : LocalTz) :
    List Nat :=
  let offsetSeconds : Int :=
    match messageDate.tz with
    | none => if localtz.daylight then -localtz.altzone else -localtz.timezone
    | some utcOffset => utcOffset
  if offsetSeconds < 0 then
    let absSeconds := offsetSeconds.natAbs
    [45] ++ pad2 (absSeconds / 3600) ++ pad2 (absSeconds % 3600 / 60)
  else
    let s := offsetSeconds.toNat
    pad2 (s / 3600) ++ pad2 (s % 3600 / 60)

/-- Decimal digit test for `pyInt`. -/
def isDigitChar (c : Nat) : Bool := 48 ≤ c && c ≤ 57

/-- Value of a non-empty digit string. -/
def digitsVal (l : List Nat) : Nat := l.foldl (fun a c => a * 10 + (c - 48)) 0

/-- Python `int(s)` on a string: optional surrounding blanks, optional
sign, then decimal digits; anything else raises `ValueError`, modelled
by `none`. -/
def pyInt (l : List Nat) : Option Int :=
  let core := ((l.dropWhile isPySpace).reverse.dropWhile isPySpace).reverse
  match core with
  | 43 :: ds =>
    if ds ≠ [] ∧ ds.all isDigitChar then some (digitsVal ds) else none
  | 45 :: ds =>
    if ds ≠ [] ∧ ds.all isDigitChar then some (-(digitsVal ds : Int)) else none
  | ds =>
    if ds ≠ [] ∧ ds.all isDigitChar then some (digitsVal ds) else none

/-- Embedding of `parse_tzutc_offset` (gateway.py lines 830-869): parse
an optionally signed `hhmm` offset and attach it.  A naive datetime
keeps its clock fields (`replace(tzinfo=...)`); an aware one is
converted (`astimezone`), shifting the clock by the offset difference.
Failed `int` conversion, a short string, or an offset `timezone()`
rejects (a day or more in magnitude) all return the datetime unchanged. -/
def parse_tzutc_offset (tzutcStr : List Nat) (messageDate : PyDatetime) :
    PyDatetime :=
  if tzutcStr = [] ∨ tzutcStr.length < 4 then messageDate
  else
    let signOffset : Int × List Nat :=
      if startsWith (ascii "-") tzutcStr then (-1, tzutcStr.drop 1)
      else if startsWith (ascii "+") tzutcStr then (1, tzutcStr.drop 1)
      else (1, tzutcStr)
    let sign := signOffset.1
    let offsetStr := signOffset.2
    if 4 ≤ offsetStr.length then
      match pyInt (offsetStr.take 2), pyInt ((offsetStr.drop 2).take 2) with
      | some hours, some minutes =>
        let totalSeconds : Int := sign * (hours * 3600 + minutes * 60)
        if -86400 < totalSeconds ∧ totalSeconds < 86400 then
          match messageDate.tz with
          | none => { messageDate with tz := some totalSeconds }
          | some cur =>
            { naiveSeconds := messageDate.naiveSeconds - cur + totalSeconds,
              tz := some totalSeconds }
        else messageDate
      | _, _ => messageDate
    else messageDate

/-! Embedding of `parse_fido_address` (fidonet_module.py lines 830-861). -/

/-- Address record; Python `int` may produce negative components, so the
fields are integers. -/
structure FidoAddress where
  zone : Int
  net : Int
  node : Int
  point : Int
deriving DecidableEq, Repr

/-- The net/node/point part of `parse_fido_address` (lines 847-856),
starting from a record whose zone may already have been assigned.  Each
failed `int` conversion raises `ValueError`, which the source catches
after the assignments made so far; the record accumulated to that point
is returned. -/
def parseNetNode (rest : List Nat) (r : FidoAddress) : FidoAddress :=
  if rest.contains 47 then
    let netPart := rest.takeWhile (· != 47)
    let nodePart := (rest.dropWhile (· != 47)).drop 1
    match pyInt netPart with
    | none => r
    | some n =>
      let r := { r with net := n }
      if nodePart.contains 46 then
        let nodeStr := nodePart.takeWhile (· != 46)
        let pointStr := (nodePart.dropWhile (· != 46)).drop 1
        match pyInt nodeStr with
        | none => r
        | some nd =>
          match pyInt pointStr with
          | none => { r with node := nd }
          | some pt => { r with node := nd, point := pt }
      else
        match pyInt nodePart with
        | none => r
        | some nd => { r with node := nd }
  else r

/-- Embedding of `parse_fido_address`: start from the hardcoded default
record `1:234/5.0` (line 833), strip a domain suffix, parse the zone if
a colon is present, then net/node/point.  Any `ValueError` is caught and
the record as mutated so far is returned — malformed addresses are
silently replaced by (parts of) the default. -/
def parse_fido_address (address : List Nat) : FidoAddress :=
  let deflt : FidoAddress := { zone := 1, net := 234, node := 5, point := 0 }
  let addr1 := address.takeWhile (· != 64)
  if addr1.contains 58 then
    let zonePart := addr1.takeWhile (· != 58)
    let rest := (addr1.dropWhile (· != 58)).drop 1
    match pyInt zonePart with
    | none => deflt
    | some z => parseNetNode rest { deflt with zone := z }
  else parseNetNode addr1 deflt

/-! Embedding of the NNTP client login (nntp_client.py). -/

/-- The exception classes of nntp_client.py lines 25-59 that carry a
response: the reply, permanent and temporary errors. -/
inductive NntpException
  | replyError (code : Nat)
  | permanentError (code : Nat)
  | temporaryError (code : Nat)
deriving DecidableEq, Repr

/-- Embedding of `_check_resp` (nntp_client.py lines 139-156), the
classifier that raises the permanent error for codes of 500 and above
and the temporary error for 400-499; `login` never calls it. -/
def check_resp (code : Nat) (expected : List Nat) :
    Except NntpException Nat :=
  if 500 ≤ code then .error (.permanentError code)
  else if 400 ≤ code then .error (.temporaryError code)
  else if expected ≠ [] ∧ code ∉ expected then .error (.replyError code)
  else .ok code

/-- Outcome of `login`. -/
inductive LoginResult
  | authenticated
  | failed (e : NntpException)
deriving DecidableEq, Repr

/-- Embedding of `login` (nntp_client.py lines 195-213) against a server
whose next two response codes are `r1` and `r2`.  Returns the commands
sent and the outcome: 281 on the USER command authenticates at once; 381
sends the PASS command, whose 281 authenticates; every other code, on
either command, raises `NNTPReplyError` with that response. -/
def login (username password : List Nat) (r1 r2 : Nat) :
    List (List Nat) × LoginResult :=
  let userCmd := ascii "AUTHINFO USER " ++ username
  if r1 = 281 then ([userCmd], .authenticated)
  else if r1 = 381 then
    let passCmd := ascii "AUTHINFO PASS " ++ password
    if r2 = 281 then ([userCmd, passCmd], .authenticated)
    else ([userCmd, passCmd], .failed (.replyError r2))
  else ([userCmd], .failed (.replyError r1))

/-! Concrete inputs used by the claim theorems. -/

/-- A packet laid out exactly as `write_message` lays packets out: 58
header bytes, a version-2 message whose 20-byte date field is padded
with spaces and carries no null terminator, then the null-terminated
to/from/subject fields, the text, its terminating null, and the 00 00
end-of-packet marker. -/
def writerLayoutPacket : List Nat :=
  List.replicate 58 0 ++ [2, 0] ++ [1, 0, 2, 0, 234, 0, 234, 0, 0, 0, 0, 0] ++
  ascii "01 Jan 25  12:00:00 " ++
  ascii "Bob" ++ [0] ++ ascii "Alice" ++ [0] ++ ascii "Hi" ++ [0] ++
  ascii "Hello" ++ [13] ++ [0] ++ [0, 0]

/-- One message in the conformant on-the-wire layout, the date null
terminated inside its 20 bytes. -/
def wireMessage (body : String) : List Nat :=
  [2, 0] ++ [1, 0, 2, 0, 234, 0, 234, 0, 0, 0, 0, 0] ++
  ascii "01 Jan 25  12:00:00" ++ [0] ++
  ascii "Bob" ++ [0] ++ ascii "Alice" ++ [0] ++ ascii "Hi" ++ [0] ++
  ascii body ++ [13] ++ [0]

/-- A packet holding two well-formed messages and the end-of-packet
marker; each message text terminator is followed by the next version-2
marker or by 00 00. -/
def twoMessagePacket : List Nat :=
  List.replicate 58 0 ++ wireMessage "Hello" ++ wireMessage "World" ++ [0, 0]

/-- A packet with one message whose text is `A<NUL>B`: the inner null is
followed neither by 0x00 nor by a little-endian 2, so it is an embedded
null; the text then ends with a terminator followed by the 00 00
end-of-packet marker. -/
def embeddedNullPacket : List Nat :=
  List.replicate 58 0 ++ [2, 0] ++ [1, 0, 2, 0, 234, 0, 234, 0, 0, 0, 0, 0] ++
  ascii "D" ++ [0] ++ ascii "T" ++ [0] ++ ascii "F" ++ [0] ++ ascii "S" ++ [0] ++
  [65, 0, 66] ++ [0] ++ [0, 0]

/-- A 60-byte packet: full header followed by a version marker of 3 with
nothing after it. -/
def shortMarkerPacket : List Nat := List.replicate 58 0 ++ [3, 0]

/-- A 72-byte packet: full header followed by a version marker of 3 and
a complete 12-byte message record. -/
def badVersionPacket : List Nat :=
  List.replicate 58 0 ++ [3, 0] ++ List.replicate 12 0

/-- Environment for one `generate_fido_msgid` call: a fresh UUID string,
a clock reading and a resolved hostname. -/
def msgidEnvA : MsgidEnv :=
  ⟨ascii "aaaaaaaaaaaaaaaa", 1700000000, ascii "h.example"⟩

/-- Environment for a second `generate_fido_msgid` call, with a
different UUID draw. -/
def msgidEnvB : MsgidEnv :=
  ⟨ascii "bbbbbbbbbbbbbbbb", 1700000000, ascii "h.example"⟩

/-- A message whose to/from/subject fields exceed the write limits. -/
def oversizedMessage : OutMessage :=
  { origNode := 1, destNode := 2, origNet := 234, destNet := 234, attr := 0,
    destZone := 1, origZone := 1,
    toName := ascii "0123456789012345678901234567890123456789",
    fromName := ascii "012345678901234567890123456789012345",
    subject := List.replicate 80 65,
    dateStr := ascii "01 Jan 25  12:00:00", text := ascii "Hello",
    area := [], msgid := [], reply := [], pid := [], tid := [], chrs := [],
    tzutc := [], replyaddr := [], replyto := [], tearline := none,
    origin := none, seenBy := [], path := [] }

/-- Hypothesis bundle for the amended C10: none of the fields that
`write_message` copies verbatim into the text region carries a null
byte.  The free-form body `text` is deliberately absent from the bundle:
the writer strips its nulls itself. -/
abbrev NullFreeFields (msg : OutMessage) (ctx : WriteCtx) : Prop :=
  0 ∉ msg.area ∧ 0 ∉ msg.msgid ∧ 0 ∉ msg.reply ∧ 0 ∉ msg.pid ∧
  0 ∉ msg.tid ∧ 0 ∉ msg.chrs ∧ 0 ∉ msg.tzutc ∧ 0 ∉ msg.replyaddr ∧
  0 ∉ msg.replyto ∧ 0 ∉ msg.tearline.getD ctx.tearline ∧
  0 ∉ msg.origin.getD ctx.origin ∧
  (∀ a ∈ msg.seenBy, 0 ∉ a) ∧ (∀ a ∈ msg.path, 0 ∉ a)

/-- An echomail message whose MSGID kludge value carries an embedded
null byte; every other field is clean. -/
def nullMsgidMessage : OutMessage :=
  { origNode := 1, destNode := 2, origNet := 234, destNet := 234, attr := 0,
    destZone := 1, origZone := 1, toName := ascii "All",
    fromName := ascii "Bob", subject := ascii "Hi",
    dateStr := ascii "01 Jan 25  12:00:00", text := ascii "Hello",
    area := ascii "TEST.AREA", msgid := [97, 0, 98], reply := [], pid := [],
    tid := [], chrs := [], tzutc := [], replyaddr := [], replyto := [],
    tearline := some (ascii "--- PyGate Linux v1.0"),
    origin := some (ascii "Test (1:234/5)"),
    seenBy := [ascii "234/5"], path := [ascii "234/5"] }

/-- The write-time context used by the concrete writer theorems. -/
def exampleWriteCtx : WriteCtx :=
  ⟨ascii "PyGate Linux v1.0", ascii "Test (1:234/5)"⟩

/-- A netmail message with null-free kludge fields whose body holds an
LF line break. -/
def cleanNetmailMessage : OutMessage :=
  { origNode := 1, destNode := 2, origNet := 234, destNet := 234, attr := 0,
    destZone := 1, origZone := 1, toName := ascii "All",
    fromName := ascii "Bob", subject := ascii "Hi",
    dateStr := ascii "01 Jan 25  12:00:00",
    text := ascii "Hello" ++ [10] ++ ascii "World",
    area := [], msgid := ascii "<x@y> 0badf00d", reply := [], pid := [],
    tid := [], chrs := [], tzutc := [], replyaddr := [], replyto := [],
    tearline := none, origin := none, seenBy := [], path := [] }

/-! Helper lemmas about the embedded string and scanning functions. -/

theorem natDigitsGo_mem {fuel : Nat} :
    ∀ {n c : Nat}, c ∈ natDigitsGo fuel n → 48 ≤ c ∧ c ≤ 57 := by
  induction fuel with
  | zero => intro n c h; cases h
  | succ fuel ih =>
    intro n c h
    rw [natDigitsGo] at h
    by_cases hn : n < 10
    · rw [if_pos hn] at h
      simp only [List.mem_singleton] at h
      omega
    · rw [if_neg hn] at h
      rcases List.mem_append.mp h with h' | h'
      · exact ih h'
      · simp only [List.mem_singleton] at h'
        have : n % 10 < 10 := Nat.mod_lt n (by omega)
        omega

theorem natDigits_mem {n c : Nat} (h : c ∈ natDigits n) :
    48 ≤ c ∧ c ≤ 57 := natDigitsGo_mem h

theorem pyReplaceGo_mem {fuel : Nat} :
    ∀ {l pat rep : List Nat} {x : Nat},
      x ∈ pyReplaceGo fuel l pat rep → x ∈ l ∨ x ∈ rep := by
  induction fuel with
  | zero => intro l pat rep x hx; cases hx
  | succ fuel ih =>
    intro l pat rep x hx
    match l with
    | [] => cases hx
    | c :: rest =>
      rw [pyReplaceGo] at hx
      by_cases h : pat ≠ [] ∧ pat.isPrefixOf (c :: rest)
      · rw [if_pos h] at hx
        rcases List.mem_append.mp hx with h' | h'
        · exact Or.inr h'
        · rcases ih h' with h'' | h''
          · exact Or.inl (List.drop_subset _ _ h'')
          · exact Or.inr h''
      · rw [if_neg h] at hx
        rcases List.mem_cons.mp hx with h' | h'
        · exact Or.inl (h' ▸ List.mem_cons_self c rest)
        · rcases ih h' with h'' | h''
          · exact Or.inl (List.mem_cons_of_mem c h'')
          · exact Or.inr h''

theorem pyReplace_mem {l pat rep : List Nat} {x : Nat}
    (hx : x ∈ pyReplace l pat rep) : x ∈ l ∨ x ∈ rep :=
  pyReplaceGo_mem hx

theorem pyReplaceGo_single_not_mem {p : Nat} {rep : List Nat}
    (hp : p ∉ rep) {fuel : Nat} :
    ∀ l, p ∉ pyReplaceGo fuel l [p] rep := by
  induction fuel with
  | zero => intro l h; cases h
  | succ fuel ih =>
    intro l
    match l with
    | [] => intro h; cases h
    | c :: rest =>
      by_cases hc : c = p
      · rw [pyReplaceGo, if_pos ⟨by simp, by simp [hc, List.isPrefixOf]⟩]
        intro hmem
        rcases List.mem_append.mp hmem with h' | h'
        · exact hp h'
        · exact ih _ (by simpa using h')
      · rw [pyReplaceGo, if_neg]
        · intro hmem
          rcases List.mem_cons.mp hmem with h' | h'
          · exact hc h'.symm
          · exact ih rest h'
        · intro hcontra
          have := hcontra.2
          simp [List.isPrefixOf] at this
          exact hc this.symm

theorem pyReplace_single_not_mem (p : Nat) (rep : List Nat)
    (hp : p ∉ rep) (l : List Nat) : p ∉ pyReplace l [p] rep :=
  pyReplaceGo_single_not_mem hp l

theorem pySplitOn_ne_nil (sep : Nat) (l : List Nat) :
    pySplitOn sep l ≠ [] := by
  cases l with
  | nil => simp [pySplitOn]
  | cons c rest =>
    rw [pySplitOn]
    by_cases hc : c = sep <;> simp [hc]

theorem pySplitOn_mem (sep x : Nat) :
    ∀ (l part : List Nat), part ∈ pySplitOn sep l → x ∈ part → x ∈ l := by
  intro l
  induction l with
  | nil =>
    intro part hpart hx
    rw [pySplitOn] at hpart
    simp only [List.mem_singleton] at hpart
    subst hpart
    cases hx
  | cons c rest ih =>
    intro part hpart hx
    simp only [pySplitOn] at hpart
    by_cases hc : c = sep
    · rw [if_pos hc] at hpart
      rcases List.mem_cons.mp hpart with h1 | h1
      · subst h1; cases hx
      · exact List.mem_cons_of_mem c (ih part h1 hx)
    · rw [if_neg hc] at hpart
      obtain ⟨a, as, hr⟩ : ∃ a as, pySplitOn sep rest = a :: as := by
        cases hq : pySplitOn sep rest with
        | nil => exact absurd hq (pySplitOn_ne_nil sep rest)
        | cons a as => exact ⟨a, as, rfl⟩
      rw [hr] at hpart
      simp only [List.headI, List.tail_cons] at hpart
      rcases List.mem_cons.mp hpart with h1 | h1
      · subst h1
        rcases List.mem_cons.mp hx with h2 | h2
        · exact h2 ▸ List.mem_cons_self c rest
        · exact List.mem_cons_of_mem c
            (ih a (by rw [hr]; exact List.mem_cons_self a as) h2)
      · exact List.mem_cons_of_mem c
          (ih part (by rw [hr]; exact List.mem_cons_of_mem a h1) hx)

theorem encodeCp437_eq_zero {c : Nat} (h : encodeCp437 c = 0) : c = 0 := by
  unfold encodeCp437 at h
  by_cases hc : c < 128
  · rwa [if_pos hc] at h
  · rw [if_neg hc] at h; cases h


theorem natDigits_ne_nil (n : Nat) : natDigits n ≠ [] := by
  rw [natDigits, natDigitsGo]
  by_cases hn : n < 10
  · rw [if_pos hn]; simp
  · rw [if_neg hn]; simp

theorem pad2_head_digit (n : Nat) :
    ∃ c t, pad2 n = c :: t ∧ 48 ≤ c ∧ c ≤ 57 := by
  rw [pad2]
  by_cases hn : n < 10
  · rw [if_pos hn]
    exact ⟨48, natDigits n, rfl, by omega, by omega⟩
  · rw [if_neg hn]
    cases hq : natDigits n with
    | nil => exact absurd hq (natDigits_ne_nil n)
    | cons c t =>
      have hc : c ∈ natDigits n := by
        rw [hq]; exact List.mem_cons_self c t
      exact ⟨c, t, rfl, (natDigits_mem hc).1, (natDigits_mem hc).2⟩

theorem truncateField_length_le (limit : Nat) (v : List Nat) :
    (truncateField limit v).length ≤ limit := by
  rw [truncateField]
  by_cases h : limit < v.length
  · rw [if_pos h, List.length_take]; omega
  · rw [if_neg h]; omega

theorem encodeStr_length (l : List Nat) : (encodeStr l).length = l.length :=
  List.length_map l encodeCp437

theorem mem_ite_single {α : Type} {c : Prop} [Decidable c] {x l : α}
    (h : l ∈ (if c then [x] else ([] : List α))) : l = x := by
  by_cases hc : c
  · rw [if_pos hc] at h; exact List.mem_singleton.mp h
  · rw [if_neg hc] at h; cases h

theorem not_mem_append2 {x : Nat} {a b : List Nat}
    (ha : x ∉ a) (hb : x ∉ b) : x ∉ a ++ b := fun h =>
  (List.mem_append.mp h).elim ha hb

theorem joinCR_mem {L : List (List Nat)} {x : Nat} :
    x ∈ joinCR L → (∃ l ∈ L, x ∈ l) ∨ x = 13 := by
  induction L with
  | nil => intro hx; cases hx
  | cons l ls ih =>
    intro hx
    cases ls with
    | nil =>
      rw [joinCR] at hx
      exact Or.inl ⟨l, by simp, hx⟩
    | cons l2 ls2 =>
      rw [joinCR] at hx
      rcases List.mem_append.mp hx with h | h
      · exact Or.inl ⟨l, by simp, h⟩
      · rcases List.mem_cons.mp h with h13 | h2
        · exact Or.inr h13
        · rcases ih h2 with ⟨m, hm, hxm⟩ | h13
          · exact Or.inl ⟨m, List.mem_cons_of_mem l hm, hxm⟩
          · exact Or.inr h13

theorem encodeStr_no_null {m : List Nat} (h : 0 ∉ m) : 0 ∉ encodeStr m := by
  intro hmem
  rcases List.mem_map.mp hmem with ⟨c, hc, hec⟩
  exact h (encodeCp437_eq_zero hec ▸ hc)

theorem cleanText_no_null (t : List Nat) : 0 ∉ cleanText t := by
  intro h
  rcases pyReplace_mem h with h1 | h1
  · rcases pyReplace_mem h1 with h2 | h2
    · exact pyReplace_single_not_mem 0 [] (List.not_mem_nil 0) t h2
    · exact absurd h2 (by decide)
  · exact absurd h1 (by decide)

theorem intlLine_no_null (msg : OutMessage) : 0 ∉ intlLine msg := by
  intro h
  rw [intlLine] at h
  simp only [List.append_assoc, List.mem_append, List.mem_singleton] at h
  rcases h with h | h | h | h | h | h | h | h | h | h | h | h
  all_goals first
    | exact absurd h (by decide)
    | (have hd := natDigits_mem h; omega)

theorem pySplitOn_two_no_null {address : List Nat} (h0 : 0 ∉ address)
    (hp : (pySplitOn 47 address).length = 2) :
    0 ∉ (pySplitOn 47 address).getD 0 [] ∧
    0 ∉ (pySplitOn 47 address).getD 1 [] := by
  obtain ⟨a, b, hab⟩ := List.length_eq_two.mp hp
  refine ⟨fun hm => ?_, fun hm => ?_⟩
  · rw [hab] at hm
    exact h0 (pySplitOn_mem 47 0 address a
      (by rw [hab]; exact List.mem_cons_self a [b]) hm)
  · rw [hab] at hm
    exact h0 (pySplitOn_mem 47 0 address b
      (by rw [hab]; exact List.mem_cons_of_mem a (List.mem_cons_self b [])) hm)

theorem trailerAddrLine_no_null :
    ∀ (addresses : List (List Nat)) (line : List Nat)
      (currentNet : Option (List Nat)) (out : List Nat),
      (∀ a ∈ addresses, 0 ∉ a) → 0 ∉ line →
      trailerAddrLine addresses line currentNet = .ok out → 0 ∉ out := by
  intro addresses
  induction addresses with
  | nil =>
    intro line cn out _ hline h
    rw [trailerAddrLine] at h
    cases h
    exact hline
  | cons address rest ih =>
    intro line cn out haddr hline h
    have haddr0 : 0 ∉ address :=
      haddr address (List.mem_cons_self address rest)
    have haddrR : ∀ a ∈ rest, 0 ∉ a := fun a ha =>
      haddr a (List.mem_cons_of_mem address ha)
    rw [trailerAddrLine] at h
    by_cases hc : address.contains 47
    · rw [if_pos hc] at h
      by_cases hp : (pySplitOn 47 address).length = 2
      · rw [if_pos hp] at h
        obtain ⟨hn0, hn1⟩ := pySplitOn_two_no_null haddr0 hp
        by_cases hne : some ((pySplitOn 47 address).getD 0 []) ≠ cn
        · rw [if_pos hne] at h
          exact ih _ _ out haddrR
            (not_mem_append2 (not_mem_append2 (not_mem_append2
              (not_mem_append2 hline (by decide)) hn0) (by decide)) hn1) h
        · rw [if_neg hne] at h
          exact ih _ _ out haddrR
            (not_mem_append2 (not_mem_append2 hline (by decide)) hn1) h
      · rw [if_neg hp] at h
        cases h
    · rw [if_neg hc] at h
      exact ih _ _ out haddrR
        (not_mem_append2 (not_mem_append2 hline (by decide)) haddr0) h

theorem tearLineOf_no_null {msg : OutMessage} {ctx : WriteCtx}
    (h : 0 ∉ msg.tearline.getD ctx.tearline) : 0 ∉ tearLineOf msg ctx := by
  rw [tearLineOf]
  by_cases hs :
      startsWith (ascii "---") (msg.tearline.getD ctx.tearline) = true
  · rw [if_pos hs]; exact h
  · rw [if_neg hs]; exact not_mem_append2 (by decide) h

theorem frontLines_no_null {msg : OutMessage} {ctx : WriteCtx}
    (h : NullFreeFields msg ctx) : ∀ l ∈ frontLines msg, 0 ∉ l := by
  obtain ⟨ha, hm, hr, hp2, ht, hc2, hz, hra, hrt, _, _, _, _⟩ := h
  intro l hl
  rw [frontLines] at hl
  simp only [List.append_assoc, List.mem_append] at hl
  rcases hl with h1 | h1 | h1 | h1 | h1 | h1 | h1 | h1 | h1 | h1 | h1
  · rw [mem_ite_single h1]; exact not_mem_append2 (by decide) ha
  · rw [mem_ite_single h1]; exact intlLine_no_null msg
  · rw [mem_ite_single h1]; exact not_mem_append2 (by decide) hm
  · rw [mem_ite_single h1]; exact not_mem_append2 (by decide) hr
  · rw [mem_ite_single h1]; exact not_mem_append2 (by decide) hp2
  · rw [mem_ite_single h1]; exact not_mem_append2 (by decide) ht
  · rw [mem_ite_single h1]; exact not_mem_append2 (by decide) hc2
  · rw [mem_ite_single h1]; exact not_mem_append2 (by decide) hz
  · rw [mem_ite_single h1]; exact not_mem_append2 (by decide) hra
  · rw [mem_ite_single h1]; exact not_mem_append2 (by decide) hrt
  · rw [mem_ite_single h1]; exact cleanText_no_null msg.text

/-! Claim theorems. -/

set_option maxRecDepth 16384

/-- C1: the spec claims `parse` reads, after the fixed-size message
header record, a fixed 20-byte date string with no terminator and then
exactly three null-terminated strings.  The code instead reads the date
with `read_null_string` like the other fields: on a packet written in
the writer's own layout (20-byte space-padded date, no terminator), the
date field the parser returns runs past the 20 date bytes into the
to-field, and every later field is shifted by one — `Alice` lands in
`to`, `Hi` in `from`, and the message text in `subject`. -/
theorem c1_parse_reads_date_as_null_terminated :
    (parsePacket writerLayoutPacket).1.map
        (fun m => (m.dateWritten, m.toName, m.fromName, m.subject)) =
      [(ascii "01 Jan 25  12:00:00 Bob", ascii "Alice", ascii "Hi",
        ascii "Hello" ++ [13])] ∧
    (parsePacket writerLayoutPacket).1.map (fun m => m.bodyLines) = [[]] := by
  decide

/-- C2: the spec claims the parser treats a text null as the genuine
message terminator when the following 16-bit little-endian value equals
2.  The repair module's analyzer does exactly that and sees two
messages and no embedded nulls in `twoMessagePacket`; but
`parse_packet`'s lookahead only checks for a following 0x00 or end of
file, so at the first message's terminator (followed by the 02 00
marker of the second message) it keeps reading, consumes the second
message's header as message body, and returns a single message. -/
theorem c2_parse_lookahead_ignores_version_marker :
    (analyzePacket twoMessagePacket).messages = 2 ∧
    (analyzePacket twoMessagePacket).embeddedNulls = [] ∧
    (parsePacket twoMessagePacket).1.length = 1 ∧
    (parsePacket twoMessagePacket).1.map (fun m => m.toName) =
      [ascii "Bob"] := by
  decide

/-- C3: the spec claims repairing a packet with an embedded null yields
zero embedded nulls with the message count unchanged.  On
`embeddedNullPacket` the analysis is valid, finds one message and one
embedded null; `repair_packet` removes it but its rebuild loop stops as
soon as at most two bytes remain, dropping the trailing 00 00
end-of-packet marker, so the repaired output ends with the text
terminator as its very last byte — which the module's own analyzer then
classifies as an embedded null again.  The message count is unchanged
but the repaired output still reports one embedded null, not zero. -/
theorem c3_repair_output_still_has_embedded_null :
    (analyzePacket embeddedNullPacket).valid = true ∧
    (analyzePacket embeddedNullPacket).messages = 1 ∧
    (analyzePacket embeddedNullPacket).embeddedNulls.length = 1 ∧
    (repairPacket embeddedNullPacket).toOption.map
        (fun r => ((analyzePacket r).messages,
                   (analyzePacket r).embeddedNulls.length)) =
      some (1, 1) := by
  decide

/-- C6: the spec claims a malformed net/node numeric yields a malformed
address error and that a malformed configured address is never silently
replaced by a default.  `parse_fido_address` instead catches the
`ValueError` and returns the hardcoded default record `1:234/5.0`,
possibly with the components parsed before the failure already
assigned: `garbage` yields the full default, `2:abc/def` keeps the
parsed zone 2 but defaults net and node, and the valid address
`1:234/5` is indistinguishable from the garbage result. -/
theorem c6_malformed_address_silently_defaults :
    parse_fido_address (ascii "garbage") =
      { zone := 1, net := 234, node := 5, point := 0 } ∧
    parse_fido_address (ascii "2:abc/def") =
      { zone := 2, net := 234, node := 5, point := 0 } ∧
    parse_fido_address (ascii "1:234/5") =
      { zone := 1, net := 234, node := 5, point := 0 } ∧
    parse_fido_address (ascii "3:45/67.8@fidonet") =
      { zone := 3, net := 45, node := 67, point := 8 } := by
  decide

/-- C5 counterexample: the claim says every packet whose two-byte
version marker is neither 0 nor 2 fails as corrupt at that offset.  A
60-byte packet carrying a version marker of 3 but nothing after it is
read by the source's 14-byte `f.read`, which comes back short, so the
incomplete-header branch is taken before the version is ever checked:
the parse ends without any corrupt/bad-version report. -/
theorem c5_short_bad_marker_not_corrupt :
    parsePacket shortMarkerPacket = ([], ParseEnd.incompleteMsgHeader) ∧
    (parsePacket shortMarkerPacket).2 ≠ ParseEnd.badVersion 3 58 := by
  decide

/-- C5 amended: an input shorter than the 58-byte header ends in the
truncated branch with no messages; and a packet with at least 14 bytes
after the header whose version marker is neither 0 nor 2 stops at once
in the bad-version branch at offset 58, returning no messages and
making no attempt to resynchronize. -/
theorem c5_parse_failure_modes (data : List Nat) :
    (data.length < 58 → parsePacket data = ([], ParseEnd.truncated)) ∧
    (72 ≤ data.length →
      le16 (byteAt data 58) (byteAt data 59) ≠ 0 →
      le16 (byteAt data 58) (byteAt data 59) ≠ 2 →
      parsePacket data =
        ([], ParseEnd.badVersion (le16 (byteAt data 58) (byteAt data 59)) 58)) := by
  constructor
  · intro h
    rw [parsePacket, if_pos h]
  · intro hlen h0 h2
    have e : (58 : Nat) + 1 = 59 := rfl
    rw [parsePacket, if_neg (by omega), parseLoop,
      if_neg (show ¬ data.length < 58 + 14 by omega),
      if_neg (show ¬ le16 (byteAt data 58) (byteAt data (58 + 1)) = 0 by
        rw [e]; exact h0),
      if_pos (show le16 (byteAt data 58) (byteAt data (58 + 1)) ≠ 2 by
        rw [e]; exact h2)]

/-- C5 witness: the amended theorem applied to the 72-byte packet with
version marker 3, whose parse stops as corrupt at offset 58, and to a
10-byte input, which is reported truncated. -/
theorem c5_parse_failure_modes_witness :
    parsePacket (List.replicate 10 0) = ([], ParseEnd.truncated) ∧
    parsePacket badVersionPacket = ([], ParseEnd.badVersion 3 58) := by
  constructor
  · exact (c5_parse_failure_modes (List.replicate 10 0)).1 (by decide)
  · have h := (c5_parse_failure_modes badVersionPacket).2
      (by decide) (by decide) (by decide)
    rw [h]
    decide

/-- C7 counterexample: the claim says two calls of the MSGID generator
return identical output for every input, including an absent or empty
source identifier.  With an empty identifier the source draws a fresh
UUID, reads the clock and resolves a hostname; two calls whose UUID
draws differ produce different MSGIDs. -/
theorem c7_empty_id_not_deterministic :
    generate_fido_msgid [] msgidEnvA ≠ generate_fido_msgid [] msgidEnvB := by
  decide

/-- C7 amended: for every non-empty source identifier the generator is
pure and deterministic — its output is a function of the identifier
alone, independent of the UUID/clock/hostname environment; only the
empty-identifier branch consults the environment. -/
theorem c7_msgid_deterministic_for_nonempty (id : List Nat)
    (h : id ≠ []) (env1 env2 : MsgidEnv) :
    generate_fido_msgid id env1 = generate_fido_msgid id env2 := by
  rw [generate_fido_msgid, generate_fido_msgid, if_pos h, if_pos h]

/-- C7 witness: the amended determinism applied to a concrete non-empty
identifier under the two distinct environments. -/
theorem c7_msgid_deterministic_witness :
    generate_fido_msgid (ascii "<abc@def>") msgidEnvA =
      generate_fido_msgid (ascii "<abc@def>") msgidEnvB :=
  c7_msgid_deterministic_for_nonempty (ascii "<abc@def>") (by decide)
    msgidEnvA msgidEnvB

/-- C9 counterexample: the claim says any response code other than 281
and 381 raises a permanent error.  `login` raises `NNTPReplyError` for
those codes — even for a 500-series response, because it never routes
the response through `_check_resp`, the only place the permanent-error
class is raised. -/
theorem c9_other_code_raises_reply_error :
    login (ascii "u") (ascii "p") 500 0 =
      ([ascii "AUTHINFO USER u"],
       LoginResult.failed (NntpException.replyError 500)) ∧
    LoginResult.failed (NntpException.replyError 500) ≠
      LoginResult.failed (NntpException.permanentError 500) := by
  decide

/-- C9 amended: `login` sends the AUTHINFO USER command; a 281 response
authenticates at once, a 381 response causes AUTHINFO PASS to be sent
and a subsequent 281 authenticates; any other code — on either command
— raises `NNTPReplyError` carrying that response (not the dedicated
permanent-error class, which only `_check_resp` raises, for codes of 500
and above). -/
theorem c9_login_behaviour (username password : List Nat) (r1 r2 : Nat) :
    (r1 = 281 →
      login username password r1 r2 =
        ([ascii "AUTHINFO USER " ++ username], LoginResult.authenticated)) ∧
    (r1 = 381 → r2 = 281 →
      login username password r1 r2 =
        ([ascii "AUTHINFO USER " ++ username,
          ascii "AUTHINFO PASS " ++ password], LoginResult.authenticated)) ∧
    (r1 = 381 → r2 ≠ 281 →
      login username password r1 r2 =
        ([ascii "AUTHINFO USER " ++ username,
          ascii "AUTHINFO PASS " ++ password],
         LoginResult.failed (NntpException.replyError r2))) ∧
    (r1 ≠ 281 → r1 ≠ 381 →
      login username password r1 r2 =
        ([ascii "AUTHINFO USER " ++ username],
         LoginResult.failed (NntpException.replyError r1))) ∧
    (∀ code : Nat, 500 ≤ code →
      check_resp code [] = Except.error (NntpException.permanentError code)) := by
  refine ⟨fun h1 => ?_, fun h1 h2 => ?_, fun h1 h2 => ?_,
    fun h1 h2 => ?_, fun code hc => ?_⟩
  · rw [login, if_pos h1]
  · rw [login, if_neg (by omega), if_pos h1, if_pos h2]
  · rw [login, if_neg (by omega), if_pos h1, if_neg h2]
  · rw [login, if_neg h1, if_neg h2]
  · rw [check_resp, if_pos hc]

/-- C9 witness: the amended behaviour at concrete responses — 281
authenticates, 381 then 281 authenticates with both commands sent, and
a 481 raises the reply error. -/
theorem c9_login_behaviour_witness :
    login (ascii "u") (ascii "p") 281 0 =
      ([ascii "AUTHINFO USER u"], LoginResult.authenticated) ∧
    login (ascii "u") (ascii "p") 381 281 =
      ([ascii "AUTHINFO USER u", ascii "AUTHINFO PASS p"],
       LoginResult.authenticated) ∧
    login (ascii "u") (ascii "p") 481 0 =
      ([ascii "AUTHINFO USER u"],
       LoginResult.failed (NntpException.replyError 481)) := by
  refine ⟨?_, ?_, ?_⟩
  · have h := (c9_login_behaviour (ascii "u") (ascii "p") 281 0).1 rfl
    rw [h]
    decide
  · have h := (c9_login_behaviour (ascii "u") (ascii "p") 381 281).2.1 rfl rfl
    rw [h]
    decide
  · have h := (c9_login_behaviour (ascii "u") (ascii "p") 481 0).2.2.2.1
      (by decide) (by decide)
    rw [h]
    decide

/-- C8: the timezone offset formatter applied at UTC-5:00 yields exactly
`-0500`; every negative offset is rendered as a single minus sign
followed by the two-digit hour and minute of the absolute magnitude
(never a doubled sign); and `parse_tzutc_offset` applied to `-0500` and
a naive datetime attaches an offset of exactly -5 hours (-18000
seconds) while keeping the clock fields. -/
theorem c8_tzutc_offsets :
    (∀ localtz : LocalTz,
      generate_tzutc_offset ⟨0, some (-18000)⟩ localtz = ascii "-0500") ∧
    (∀ naive : Int,
      parse_tzutc_offset (ascii "-0500") ⟨naive, none⟩ =
        ⟨naive, some (-18000)⟩) ∧
    (∀ (s p : Int) (localtz : LocalTz), s < 0 →
      generate_tzutc_offset ⟨p, some s⟩ localtz =
        [45] ++ pad2 (s.natAbs / 3600) ++ pad2 (s.natAbs % 3600 / 60) ∧
      startsWith (ascii "--") (generate_tzutc_offset ⟨p, some s⟩ localtz) =
        false) := by
  have hneg : ∀ (s p : Int) (ltz : LocalTz), s < 0 →
      generate_tzutc_offset ⟨p, some s⟩ ltz =
        [45] ++ pad2 (s.natAbs / 3600) ++ pad2 (s.natAbs % 3600 / 60) := by
    intro s p ltz hs
    show (if s < 0 then
        [45] ++ pad2 (s.natAbs / 3600) ++ pad2 (s.natAbs % 3600 / 60)
      else pad2 (s.toNat / 3600) ++ pad2 (s.toNat % 3600 / 60)) =
      [45] ++ pad2 (s.natAbs / 3600) ++ pad2 (s.natAbs % 3600 / 60)
    rw [if_pos hs]
  refine ⟨fun localtz => ?_, fun naive => rfl, fun s p localtz hs => ?_⟩
  · rw [hneg (-18000) 0 localtz (by decide)]
    decide
  refine ⟨hneg s p localtz hs, ?_⟩
  rw [hneg s p localtz hs]
  obtain ⟨c, t, hpad, hc1, hc2⟩ := pad2_head_digit (s.natAbs / 3600)
  rw [hpad]
  show List.isPrefixOf [45, 45] (45 :: (c :: t ++ _)) = false
  simp only [List.isPrefixOf, List.cons_append, Bool.and_eq_false_imp]
  simp only [beq_iff_eq]
  omega

/-- C8 witness: the universal negative-offset format applied at the
offset -3660 seconds (one hour and one minute west), which renders as
`-0101`. -/
theorem c8_tzutc_offsets_witness :
    generate_tzutc_offset ⟨0, some (-3660)⟩ ⟨false, 0, 0⟩ = ascii "-0101" := by
  have h := (c8_tzutc_offsets.2.2 (-3660) 0 ⟨false, 0, 0⟩ (by decide)).1
  rw [h]
  decide

/-- C4: for every message, the encoded to and from fields are at most 35
bytes and the subject at most 71 bytes before their null terminators;
the date field is always exactly 20 bytes; `write_message` reports
truncation of an oversized field through its diagnostic list (never an
exception — the embedding is total on these fields), and the diagnostics
a successful write returns are exactly `writeDiags`. -/
theorem c4_write_field_bounds (msg : OutMessage) :
    (encodeStr (truncateField 35 msg.toName)).length ≤ 35 ∧
    (encodeStr (truncateField 35 msg.fromName)).length ≤ 35 ∧
    (encodeStr (truncateField 71 msg.subject)).length ≤ 71 ∧
    (dateField msg.dateStr).length = 20 ∧
    (∀ ctx out, writeMessage msg ctx = Except.ok out →
      out.2 = writeDiags msg.toName msg.fromName msg.subject) ∧
    (35 < msg.toName.length →
      Diag.truncatedToName ∈ writeDiags msg.toName msg.fromName msg.subject) ∧
    (35 < msg.fromName.length →
      Diag.truncatedFromName ∈
        writeDiags msg.toName msg.fromName msg.subject) ∧
    (71 < msg.subject.length →
      Diag.truncatedSubject ∈
        writeDiags msg.toName msg.fromName msg.subject) := by
  refine ⟨?_, ?_, ?_, ?_, ?_, ?_, ?_, ?_⟩
  · rw [encodeStr_length]; exact truncateField_length_le 35 msg.toName
  · rw [encodeStr_length]; exact truncateField_length_le 35 msg.fromName
  · rw [encodeStr_length]; exact truncateField_length_le 71 msg.subject
  · simp only [dateField]
    by_cases h1 : (encodeStr msg.dateStr).length < 20
    · rw [if_pos h1]
      simp only [List.length_append, List.length_replicate]
      omega
    · rw [if_neg h1]
      by_cases h2 : 20 < (encodeStr msg.dateStr).length
      · rw [if_pos h2, List.length_take]; omega
      · rw [if_neg h2]; omega
  · intro ctx out h
    rw [writeMessage] at h
    cases hb : buildTextLines msg ctx with
    | error e => rw [hb] at h; cases h
    | ok lines => rw [hb] at h; cases h; rfl
  · intro h
    rw [writeDiags, if_pos h]
    simp
  · intro h
    rw [writeDiags, if_pos h]
    simp
  · intro h
    rw [writeDiags, if_pos h]
    simp

/-- C4 witness: the bounds and diagnostics applied to a message with a
40-character to-name, a 36-character from-name and an 80-character
subject: all three truncation diagnostics are reported and the date
field is 20 bytes. -/
theorem c4_write_field_bounds_witness :
    (encodeStr (truncateField 35 oversizedMessage.toName)).length ≤ 35 ∧
    (dateField oversizedMessage.dateStr).length = 20 ∧
    Diag.truncatedToName ∈ writeDiags oversizedMessage.toName
      oversizedMessage.fromName oversizedMessage.subject ∧
    Diag.truncatedFromName ∈ writeDiags oversizedMessage.toName
      oversizedMessage.fromName oversizedMessage.subject ∧
    Diag.truncatedSubject ∈ writeDiags oversizedMessage.toName
      oversizedMessage.fromName oversizedMessage.subject :=
  ⟨(c4_write_field_bounds oversizedMessage).1,
   (c4_write_field_bounds oversizedMessage).2.2.2.1,
   (c4_write_field_bounds oversizedMessage).2.2.2.2.2.1 (by decide),
   (c4_write_field_bounds oversizedMessage).2.2.2.2.2.2.1 (by decide),
   (c4_write_field_bounds oversizedMessage).2.2.2.2.2.2.2 (by decide)⟩

/-- C10 counterexample: the claim concludes that the text region of
every written message is null-free because the body is cleaned.  But
only the body passes through the cleanup of line 719; kludge values are
copied verbatim, so a message whose MSGID value contains a null byte
puts that null straight into the text region between the subject
terminator and the final null. -/
theorem c10_null_kludge_reaches_text_region :
    (buildTextLines nullMsgidMessage exampleWriteCtx).toOption.map
      (fun lines => (encodeStr (joinCR lines)).contains 0) = some true := by
  decide

/-- C10 amended: the writer deletes every null byte from the body and
turns LF into CR (`cleanText`); provided the fields it copies verbatim
into the text region (area, the kludge values, the tear/origin lines
and the SEEN-BY/PATH addresses) are themselves null-free, the encoded
text region between the subject terminator and the terminating null of
a successfully written message contains no null byte. -/
theorem c10_text_region_null_free (msg : OutMessage) (ctx : WriteCtx)
    (h : NullFreeFields msg ctx) (lines : List (List Nat))
    (hlines : buildTextLines msg ctx = .ok lines) :
    0 ∉ encodeStr (joinCR lines) := by
  obtain ⟨ha, hm, hr, hp2, ht, hc2, hz, hra, hrt, htear, horig, hseen,
    hpath⟩ := h
  have hall : ∀ l ∈ lines, 0 ∉ l := by
    rw [buildTextLines] at hlines
    by_cases harea : msg.area = []
    · rw [if_pos harea] at hlines
      cases hlines
      exact frontLines_no_null ⟨ha, hm, hr, hp2, ht, hc2, hz, hra, hrt,
        htear, horig, hseen, hpath⟩
    · rw [if_neg harea] at hlines
      cases hsb : seenByLines msg with
      | error e => rw [hsb] at hlines; cases hlines
      | ok sb =>
        rw [hsb] at hlines
        cases hpl : pathLines msg with
        | error e => rw [hpl] at hlines; cases hlines
        | ok pl =>
          rw [hpl] at hlines
          cases hlines
          have hsb0 : ∀ l ∈ sb, 0 ∉ l := by
            rw [seenByLines] at hsb
            by_cases hse : msg.seenBy = []
            · rw [if_pos hse] at hsb
              cases hsb
              intro l hl
              cases hl
            · rw [if_neg hse] at hsb
              cases htr : trailerAddrLine msg.seenBy (ascii "SEEN-BY:") none
                with
              | error e => rw [htr] at hsb; cases hsb
              | ok tl =>
                rw [htr] at hsb
                cases hsb
                intro l hl
                rw [List.mem_singleton.mp hl]
                exact trailerAddrLine_no_null msg.seenBy _ none tl hseen
                  (by decide) htr
          have hpl0 : ∀ l ∈ pl, 0 ∉ l := by
            rw [pathLines] at hpl
            by_cases hpe : msg.path = []
            · rw [if_pos hpe] at hpl
              cases hpl
              intro l hl
              cases hl
            · rw [if_neg hpe] at hpl
              cases htr : trailerAddrLine msg.path (ascii "\x01PATH:") none
                with
              | error e => rw [htr] at hpl; cases hpl
              | ok tl =>
                rw [htr] at hpl
                cases hpl
                intro l hl
                rw [List.mem_singleton.mp hl]
                exact trailerAddrLine_no_null msg.path _ none tl hpath
                  (by decide) htr
          intro l hl
          rcases List.mem_append.mp hl with hl | hlpl
          · rcases List.mem_append.mp hl with hl | hlsb
            · rcases List.mem_append.mp hl with hl | hlorig
              · rcases List.mem_append.mp hl with hl | hltear
                · rcases List.mem_append.mp hl with hlfront | hlblank
                  · exact frontLines_no_null ⟨ha, hm, hr, hp2, ht, hc2, hz,
                      hra, hrt, htear, horig, hseen, hpath⟩ l hlfront
                  · rw [List.mem_singleton.mp hlblank]
                    exact List.not_mem_nil 0
                · rw [List.mem_singleton.mp hltear]
                  exact tearLineOf_no_null htear
              · rw [List.mem_singleton.mp hlorig, originLineOf]
                exact not_mem_append2 (by decide) horig
            · exact hsb0 l hlsb
          · exact hpl0 l hlpl
  intro hmem
  rcases List.mem_map.mp hmem with ⟨c, hc, hec⟩
  have hc0 : c = 0 := encodeCp437_eq_zero hec
  subst hc0
  rcases joinCR_mem hc with ⟨l, hl, h0l⟩ | h13
  · exact hall l hl h0l
  · exact absurd h13 (by decide)

/-- C10 witness: the amended theorem applied to a concrete netmail
message with null-free fields; its assembled text region carries no
null byte. -/
theorem c10_text_region_null_free_witness :
    0 ∉ encodeStr (joinCR (frontLines cleanNetmailMessage)) :=
  c10_text_region_null_free cleanNetmailMessage exampleWriteCtx (by decide)
    (frontLines cleanNetmailMessage) rfl

end PyGate
